import Mathlib

set_option maxHeartbeats 1000000

/-! Shallow embedding of the BeakerStack avatar-upload hook (`useAvatarUpload`)
and of the CloudFront PR path-router viewer-request function, together with
theorems settling the specification's claims about them. -/

namespace AvatarUpload

/-- Decimal rendering of a natural number, fuel-indexed so that it is
structurally recursive; the fuel-exhausted arm is only reachable at `n = 0`,
where it agrees with the main branch. Mirrors JavaScript integer
stringification (as used by template interpolation of `Date.now()`). -/
def natToDigitsF : Nat → Nat → List Char
  | 0, n => [Nat.digitChar n]
  | f+1, n =>
    if n < 10 then [Nat.digitChar n]
    else natToDigitsF f (n / 10) ++ [Nat.digitChar (n % 10)]

/-- Decimal digit list of `n`; fuel `n` always suffices. -/
def natToDigits (n : Nat) : List Char := natToDigitsF n n

/-- Decimal string of a natural number. -/
def natToString (n : Nat) : String := ⟨natToDigits n⟩

/-- A candidate avatar input, as `uploadAvatar` accepts it.  A `File` always
carries a MIME type string (possibly empty), a `Blob` carries a type string
that may be empty, and an `ArrayBuffer` may carry an attached `type` property
(the React Native path); the empty string stands for a missing/falsy type. -/
inductive FileInput where
  | file (size : Nat) (mime : String)
  | blob (size : Nat) (mime : String)
  | arrayBuffer (byteLength : Nat) (attachedType : String)
deriving DecidableEq

/-- Byte length of the input (`.size` for File/Blob, `.byteLength` for
ArrayBuffer). -/
def FileInput.byteLen : FileInput → Nat
  | .file size _ => size
  | .blob size _ => size
  | .arrayBuffer n _ => n

/-- The MIME type declared on the input, empty when none is attached. -/
def FileInput.declaredMime : FileInput → String
  | .file _ mime => mime
  | .blob _ mime => mime
  | .arrayBuffer _ t => t

/-- MAX_FILE_SIZE = 2 * 1024 * 1024 bytes. -/
def MAX_FILE_SIZE : Nat := 2 * 1024 * 1024

/-- ALLOWED_MIME_TYPES from the hook. -/
def ALLOWED_MIME_TYPES : List String := ["image/jpeg", "image/png", "image/webp"]

/-- BUCKET_NAME from the hook. -/
def BUCKET_NAME : String := "avatars"

/-- The size-limit error message thrown by `validateFile`
(template `File size must be less than (MAX_FILE_SIZE / 1024 / 1024)MB`). -/
def sizeErrorMessage : String :=
  "File size must be less than " ++ natToString (MAX_FILE_SIZE / 1024 / 1024) ++ "MB"

/-- The MIME-type error message thrown by `validateFile`. -/
def typeErrorMessage : String := "File must be a JPEG, PNG, or WebP image"

/-- Result of `validateFile`: `some msg` when it throws, `none` when it
returns normally.  Size is checked for File and Blob; the MIME type is checked
only when the input is a `File` (the Blob branch deliberately skips it).  The
ArrayBuffer arm records that `uploadAvatar` never routes ArrayBuffer inputs
through validation (and the source `validateFile`, if it were called on one,
would also not throw, since `undefined > MAX_FILE_SIZE` is false and an
ArrayBuffer is not an instance of File). -/
def validateFile : FileInput → Option String
  | .file size mime =>
    if size > MAX_FILE_SIZE then some sizeErrorMessage
    else if ¬ (ALLOWED_MIME_TYPES.contains mime) then some typeErrorMessage
    else none
  | .blob size _ =>
    if size > MAX_FILE_SIZE then some sizeErrorMessage
    else none
  | .arrayBuffer _ _ => none

/-- The `mimeToExt` lookup table used by `getFileExtension` and by the
ArrayBuffer branch of `uploadAvatar`. -/
def mimeToExt (t : String) : Option String :=
  if t = "image/jpeg" then some "jpg"
  else if t = "image/png" then some "png"
  else if t = "image/webp" then some "webp"
  else none

/-- `getFileExtension` restricted to File/Blob inputs, extended to
ArrayBuffer with the extension computation of `uploadAvatar`'s ArrayBuffer
branch (`mimeToExt table applied to the defaulted content type, else jpg`). -/
def getFileExtension : FileInput → String
  | .file _ mime =>
    match mimeToExt mime with
    | some e => e
    | none => "jpg"
  | .blob _ mime =>
    if mime ≠ "" then
      match mimeToExt mime with
      | some e => e
      | none => "jpg"
    else "jpg"
  | .arrayBuffer _ t =>
    match mimeToExt (if t = "" then "image/jpeg" else t) with
    | some e => e
    | none => "jpg"

/-- The content type `uploadAvatar` sends to storage: the File's type, the
Blob's type defaulted to `image/jpeg` when empty, or the ArrayBuffer's
attached type defaulted to `image/jpeg` when absent. -/
def contentTypeOf : FileInput → String
  | .file _ mime => mime
  | .blob _ mime => if mime = "" then "image/jpeg" else mime
  | .arrayBuffer _ t => if t = "" then "image/jpeg" else t

/-- Target object path `userId/avatar.ext`. -/
def filePathOf (userId : String) (input : FileInput) : String :=
  userId ++ "/avatar." ++ getFileExtension input

/-- Storage operations issued against the Supabase storage client, recorded
in call order. -/
inductive StorageOp where
  | remove (bucket : String) (paths : List String)
  | upload (bucket : String) (path : String) (upsert : Bool) (contentType : String)
  | getPublicUrl (bucket : String) (path : String)
  | list (bucket : String) (dir : String) (limit : Nat) (search : String)
deriving DecidableEq

instance {ε α : Type} [DecidableEq ε] [DecidableEq α] : DecidableEq (Except ε α) := by
  intro a b
  cases a <;> cases b
  case error.error e f => exact decidable_of_iff (e = f) (by simp)
  case ok.ok x y => exact decidable_of_iff (x = y) (by simp)
  all_goals exact isFalse (by simp)

/-- Local hook state (`uploading`, `progress`, `error`, `uploadedUrl`). -/
structure HookState where
  uploading : Bool
  progress : Nat
  error : Option String
  uploadedUrl : Option String
deriving DecidableEq

/-- The initial hook state. -/
def initState : HookState := ⟨false, 0, none, none⟩

/-- Oracle for one `uploadAvatar` call: outcomes chosen by the storage
backend and the ambient clock/randomness.  `removeThrows` records whether the
best-effort delete rejects (the hook ignores it either way). -/
structure Env where
  removeThrows : Bool
  uploadError : Option String
  uploadNoData : Bool
  publicUrl : String → String
  nowMs : Nat
  randToken : String

/-- Outcome of one `uploadAvatar` call: the storage operations issued, the
returned value or thrown error message, and the final hook state. -/
structure UploadOutcome where
  trace : List StorageOp
  result : Except String String
  state : HookState
deriving DecidableEq

/-- Validation as `uploadAvatar` actually applies it: ArrayBuffer inputs take
the branch that never calls `validateFile`; File and Blob inputs go through
`validateFile`. -/
def effectiveValidation (input : FileInput) : Option String :=
  match input with
  | .arrayBuffer _ _ => none
  | _ => validateFile input

/-- Shallow embedding of `uploadAvatar`.  On entry the hook sets
`uploading := true`, `progress := 0`, clears `error` and `uploadedUrl`; the
`finally` block restores `uploading := false`, `progress := 0`; the `catch`
block stores the wrapped error in state and rethrows it. -/
def uploadAvatar (env : Env) (userId : String) (input : FileInput)
    (_s : HookState) : UploadOutcome :=
  match effectiveValidation input with
  | some msg =>
    { trace := []
      result := .error msg
      state := { uploading := false, progress := 0, error := some msg, uploadedUrl := none } }
  | none =>
    let contentType := contentTypeOf input
    let filePath := filePathOf userId input
    let preOps : List StorageOp :=
      [.remove BUCKET_NAME [filePath], .upload BUCKET_NAME filePath true contentType]
    match env.uploadError with
    | some m =>
      let msg := "Upload failed: " ++ m
      { trace := preOps
        result := .error msg
        state := { uploading := false, progress := 0, error := some msg, uploadedUrl := none } }
    | none =>
      if env.uploadNoData then
        let msg := "Upload succeeded but returned no data"
        { trace := preOps
          result := .error msg
          state := { uploading := false, progress := 0, error := some msg, uploadedUrl := none } }
      else
        let publicUrl := env.publicUrl filePath
        let cacheBustedUrl :=
          publicUrl ++ "?t=" ++ natToString env.nowMs ++ "&v=" ++ env.randToken
        { trace := preOps ++ [.getPublicUrl BUCKET_NAME filePath]
          result := .ok cacheBustedUrl
          state := { uploading := false, progress := 0, error := none,
                     uploadedUrl := some cacheBustedUrl } }

/-- Oracle for one `removeAvatar` call: the list result (error message or the
file names found under the user's folder) and the error, if any, returned by
the delete of the found paths. -/
structure RemoveEnv where
  listResult : Except String (List String)
  removeError : Option String

/-- Outcome of one `removeAvatar` call. -/
structure RemoveOutcome where
  trace : List StorageOp
  result : Except String Unit
  state : HookState
deriving DecidableEq

/-- Shallow embedding of `removeAvatar`.  It clears `error`, lists the user's
folder with `limit 10` and `search "avatar"`; on a list error it deletes the
three guessed paths and returns early (ignoring that delete's result and
leaving `uploadedUrl` untouched); otherwise it deletes the found paths,
throws on a delete error, and finally clears `uploadedUrl`. -/
def removeAvatar (env : RemoveEnv) (userId : String) (s : HookState) : RemoveOutcome :=
  let listOp := StorageOp.list BUCKET_NAME userId 10 "avatar"
  match env.listResult with
  | .error _ =>
    let commonPaths :=
      [userId ++ "/avatar.jpg", userId ++ "/avatar.png", userId ++ "/avatar.webp"]
    { trace := [listOp, .remove BUCKET_NAME commonPaths]
      result := .ok ()
      state := { s with error := none } }
  | .ok files =>
    if files.length > 0 then
      let filePaths := files.map (fun name => userId ++ "/" ++ name)
      match env.removeError with
      | some m =>
        let msg := "Failed to delete avatar: " ++ m
        { trace := [listOp, .remove BUCKET_NAME filePaths]
          result := .error msg
          state := { s with error := some msg } }
      | none =>
        { trace := [listOp, .remove BUCKET_NAME filePaths]
          result := .ok ()
          state := { s with error := none, uploadedUrl := none } }
    else
      { trace := [listOp]
        result := .ok ()
        state := { s with error := none, uploadedUrl := none } }

/-- Substring containment, stated by explicit decomposition. -/
def containsStr (s sub : String) : Prop := ∃ a b : String, s = a ++ sub ++ b

/-- True for File and Blob inputs, false for ArrayBuffer inputs. -/
def FileInput.isFileOrBlob : FileInput → Bool
  | .arrayBuffer _ _ => false
  | _ => true

/-- A storage oracle that succeeds, with public-URL base `https://cdn/`,
clock reading 0 and random token `a`; used for concrete instantiations. -/
def envOk : Env :=
  { removeThrows := false, uploadError := none, uploadNoData := false,
    publicUrl := fun p => "https://cdn/" ++ p, nowMs := 0, randToken := "a" }

/-- The oracle of a second call that happens to observe the same storage,
clock and randomness values as `envOk`. -/
def envOkAgain : Env :=
  { removeThrows := false, uploadError := none, uploadNoData := false,
    publicUrl := fun p => "https://cdn/" ++ p, nowMs := 0, randToken := "a" }

/-- Like `envOk` but observed one millisecond later. -/
def envOkLater : Env := { envOk with nowMs := 1 }

/-- Like `envOk` but the upload operation reports an error. -/
def envUploadFails : Env := { envOk with uploadError := some "boom" }

/-- A removal oracle whose list call fails. -/
def envListFails : RemoveEnv := ⟨.error "nope", none⟩

/-- A removal oracle whose list call finds one avatar file and whose delete
succeeds. -/
def envListOk : RemoveEnv := ⟨.ok ["avatar.jpg"], none⟩

/-- A hook state currently holding an uploaded URL. -/
def stateWithUrl : HookState := ⟨false, 0, none, some "old"⟩

end AvatarUpload


namespace PRRouter

/-- A character matched by the regex class `[a-z0-9]` under the `i` flag. -/
def isExtChar (c : Char) : Bool :=
  c.isDigit || (97 ≤ c.toNat && c.toNat ≤ 122) || (65 ≤ c.toNat && c.toNat ≤ 90)

/-- ECMAScript line terminators, which `.` (no `s` flag) does not match. -/
def isLineTerm (c : Char) : Bool :=
  c == '\n' || c == '\r' || c == '\u2028' || c == '\u2029'

/-- Test of the regex `\.[a-z0-9]+$` (flag `i`): the string ends in a dot
followed by one or more ASCII letters/digits. -/
def extTest (l : List Char) : Bool :=
  let r := l.reverse
  !(r.takeWhile isExtChar).isEmpty && ((r.dropWhile isExtChar).head? == some '.')

/-- `isFilePath` from the router: strip at most one trailing slash
(`replace(re-slash-end, empty)`), then test for a file extension. -/
def isFilePath (p : List Char) : Bool :=
  let trimmed := if p.getLast? == some '/' then p.dropLast else p
  extTest trimmed

/-- The global replace of leading and trailing slash runs
(`replace(re-outer-slashes, empty)`) applied to the captured PR segment. -/
def stripOuterSlashes (l : List Char) : List Char :=
  ((l.dropWhile (· == '/')).reverse.dropWhile (· == '/')).reverse

/-- `rewritePath` from the router: sanitize the PR segment and the rest of
the path, then pick `index.html` for empty/extension-less paths and keep
file paths as they are. -/
def rewritePath (prSeg rest : List Char) : List Char :=
  let sanitizedSeg := stripOuterSlashes prSeg
  let base := if rest.isEmpty then ['/'] else rest
  let sanitizedPath := base.dropWhile (· == '/')
  if sanitizedPath.isEmpty || sanitizedPath == ['/'] then
    sanitizedSeg ++ ("/index.html").data
  else if !(isFilePath sanitizedPath) then
    sanitizedSeg ++ ("/index.html").data
  else
    sanitizedSeg ++ '/' :: sanitizedPath

/-- Shape admitted for the second capture group `(/.*)?` of the PR pattern:
absent, or a slash followed by characters that `.` can match. -/
def restOk (rest : List Char) : Bool :=
  match rest with
  | [] => true
  | c :: tl => c == '/' && tl.all (fun d => !(isLineTerm d))

/-- Matcher for the anchored pattern built from the preview-prefix base
`pr-` : `start, slash, group(pr-, digits+), group(slash, any*), end`.
Returns the two capture groups on success. -/
def prMatch (u : List Char) : Option (List Char × List Char) :=
  match u with
  | a :: b :: c :: d :: t =>
    if a == '/' && b == 'p' && c == 'r' && d == '-' then
      let N := t.takeWhile Char.isDigit
      let rest := t.dropWhile Char.isDigit
      if !N.isEmpty && restOk rest then some (N, rest) else none
    else none
  | _ => none

/-- The CloudFront viewer-request handler: default an empty URI to `/`,
rewrite URIs matching the PR pattern, and pass everything else through with
the original URI untouched. The bootstrap script substitutes `pr-` for the
preview-prefix placeholder. -/
def handler (uri : List Char) : List Char :=
  let u := if uri.isEmpty then ['/'] else uri
  match prMatch u with
  | some (N, rest) => '/' :: rewritePath ('p' :: 'r' :: '-' :: N) rest
  | none => uri

/-- The decomposition named by the claim: the URI is `/pr-N rest` for a
nonempty digit sequence `N`, with `rest` absent or a slash followed by
non-line-terminator characters (the shapes the viewer-request pattern can
capture). -/
def isPRForm (uri N rest : List Char) : Prop :=
  uri = '/' :: 'p' :: 'r' :: '-' :: (N ++ rest) ∧ N ≠ [] ∧
    (∀ c ∈ N, c.isDigit = true) ∧ restOk rest = true

instance (uri N rest : List Char) : Decidable (isPRForm uri N rest) := by
  unfold isPRForm
  infer_instance

/-- The rewrite target the claim describes: with `p` the rest of the path
stripped of leading slashes, a path ending in a file extension maps to
`/pr-N/p`, anything else (empty, a slash, no extension) maps to
`/pr-N/index.html`; a path ends in a file extension when, ignoring at most
one trailing slash, it ends in a dot followed by ASCII letters/digits. -/
def claimTarget (N rest : List Char) : List Char :=
  let p := rest.dropWhile (· == '/')
  if p ≠ [] ∧ isFilePath p = true then
    '/' :: 'p' :: 'r' :: '-' :: (N ++ '/' :: p)
  else
    '/' :: 'p' :: 'r' :: '-' :: (N ++ ("/index.html").data)

end PRRouter

namespace AvatarUpload

/-- The fuel argument of `natToDigitsF` is irrelevant as long as it is at
least `n`. -/
theorem natToDigitsF_irrel (n : Nat) : ∀ f g : Nat, n ≤ f → n ≤ g →
    natToDigitsF f n = natToDigitsF g n := by
  induction n using Nat.strong_induction_on with
  | _ n ih =>
    intro f g hf hg
    match f, g with
    | 0, 0 => rfl
    | 0, g+1 =>
      interval_cases n
      simp [natToDigitsF]
    | f+1, 0 =>
      interval_cases n
      simp [natToDigitsF]
    | f+1, g+1 =>
      simp only [natToDigitsF]
      by_cases h10 : n < 10
      · simp [h10]
      · simp only [h10, if_false]
        have hlt : n / 10 < n := Nat.div_lt_self (by omega) (by omega)
        have hf' : n / 10 ≤ f := by omega
        have hg' : n / 10 ≤ g := by omega
        rw [ih (n / 10) hlt f g hf' hg']

/-- Unfolding equation for `natToDigits` that hides the fuel. -/
theorem natToDigits_eq (n : Nat) :
    natToDigits n =
      if n < 10 then [Nat.digitChar n]
      else natToDigits (n / 10) ++ [Nat.digitChar (n % 10)] := by
  by_cases h10 : n < 10
  · simp only [h10, if_true]
    unfold natToDigits
    match n, h10 with
    | 0, _ => rfl
    | n+1, h => simp [natToDigitsF, h]
  · simp only [h10, if_false]
    unfold natToDigits
    have hn : 10 ≤ n := by omega
    match n, hn with
    | n+1, hn =>
      simp only [natToDigitsF, h10, if_false]
      have hlt : (n+1) / 10 < n + 1 := Nat.div_lt_self (by omega) (by omega)
      rw [natToDigitsF_irrel ((n+1)/10) n ((n+1)/10) (by omega) (le_refl _)]

/-- Every character produced by `natToDigits` is a decimal digit. -/
theorem natToDigits_isDigit (n : Nat) : ∀ c ∈ natToDigits n, c.isDigit = true := by
  induction n using Nat.strong_induction_on with
  | _ n ih =>
    rw [natToDigits_eq]
    have hdig : ∀ k, k < 10 → (Nat.digitChar k).isDigit = true := by decide
    by_cases h10 : n < 10
    · simp only [h10, if_true, List.mem_singleton]
      intro c hc
      subst hc
      exact hdig n h10
    · simp only [h10, if_false, List.mem_append, List.mem_singleton]
      intro c hc
      rcases hc with hc | hc
      · exact ih (n / 10) (Nat.div_lt_self (by omega) (by omega)) c hc
      · subst hc
        exact hdig (n % 10) (Nat.mod_lt _ (by omega))

/-- `natToDigits` is injective: distinct naturals have distinct decimal
renderings. -/
theorem natToDigits_inj (m : Nat) : ∀ n : Nat, natToDigits m = natToDigits n → m = n := by
  induction m using Nat.strong_induction_on with
  | _ m ih =>
    intro n h
    rw [natToDigits_eq m, natToDigits_eq n] at h
    have hdi : ∀ a, a < 10 → ∀ b, b < 10 → Nat.digitChar a = Nat.digitChar b → a = b := by
      decide
    have hne : ∀ k, natToDigits k ≠ [] := by
      intro k
      rw [natToDigits_eq]
      by_cases hk : k < 10 <;> simp [hk]
    by_cases hm : m < 10 <;> by_cases hn : n < 10
    · simp only [hm, hn, if_true, List.cons.injEq] at h
      exact hdi m hm n hn h.1
    · exfalso
      simp only [hm, hn, if_true, if_false] at h
      have := congrArg List.length h
      simp only [List.length_singleton, List.length_append] at this
      have h1 : 1 ≤ (natToDigits (n / 10)).length := by
        have := hne (n / 10)
        cases hcase : natToDigits (n / 10) with
        | nil => exact absurd hcase this
        | cons a l => simp
      omega
    · exfalso
      simp only [hm, hn, if_true, if_false] at h
      have := congrArg List.length h
      simp only [List.length_singleton, List.length_append] at this
      have h1 : 1 ≤ (natToDigits (m / 10)).length := by
        have := hne (m / 10)
        cases hcase : natToDigits (m / 10) with
        | nil => exact absurd hcase this
        | cons a l => simp
      omega
    · simp only [hm, hn, if_false] at h
      have hsplit := List.append_inj' h (by simp)
      have h1 : m / 10 = n / 10 :=
        ih (m / 10) (Nat.div_lt_self (by omega) (by omega)) (n / 10) hsplit.1
      have h2 : m % 10 = n % 10 := by
        have := hsplit.2
        simp only [List.cons.injEq] at this
        exact hdi _ (Nat.mod_lt _ (by omega)) _ (Nat.mod_lt _ (by omega)) this.1
      omega

end AvatarUpload

namespace AvatarUpload

/-- C1 (amended): for every File or Blob input whose byte length exceeds
2,097,152 bytes, `uploadAvatar` rejects with an error whose message contains
`2MB`, and no storage upload operation is called. -/
theorem upload_rejects_oversize (env : Env) (userId : String) (s : HookState)
    (input : FileInput) (hfb : input.isFileOrBlob = true)
    (hsize : MAX_FILE_SIZE < input.byteLen) :
    (uploadAvatar env userId input s).result = .error sizeErrorMessage ∧
    containsStr sizeErrorMessage "2MB" ∧
    ∀ b p up ct, StorageOp.upload b p up ct ∉ (uploadAvatar env userId input s).trace := by
  have hval : effectiveValidation input = some sizeErrorMessage := by
    cases input with
    | file size mime =>
      simp only [FileInput.byteLen] at hsize
      simp [effectiveValidation, validateFile, hsize]
    | blob size mime =>
      simp only [FileInput.byteLen] at hsize
      simp [effectiveValidation, validateFile, hsize]
    | arrayBuffer n t => simp [FileInput.isFileOrBlob] at hfb
  refine ⟨by simp [uploadAvatar, hval], ⟨"File size must be less than ", "", by decide⟩, ?_⟩
  intro b p up ct hmem
  simp [uploadAvatar, hval] at hmem

/-- Witness for C1's theorem at a 2,097,153-byte PNG File. -/
theorem upload_rejects_oversize_witness :
    (uploadAvatar envOk "u" (.file 2097153 "image/png") initState).result
      = .error sizeErrorMessage ∧ containsStr sizeErrorMessage "2MB" := by
  have h := upload_rejects_oversize envOk "u" initState (.file 2097153 "image/png")
    (by decide) (by decide)
  exact ⟨h.1, h.2.1⟩

/-- C1 counterexample: a 2,097,153-byte ArrayBuffer input is not rejected —
the call succeeds and the storage upload operation is called. -/
theorem oversize_arrayBuffer_uploads :
    (uploadAvatar envOk "u" (.arrayBuffer 2097153 "") initState).result
      = .ok "https://cdn/u/avatar.jpg?t=0&v=a" ∧
    StorageOp.upload "avatars" "u/avatar.jpg" true "image/jpeg"
      ∈ (uploadAvatar envOk "u" (.arrayBuffer 2097153 "") initState).trace := by
  decide

/-- C2 (amended): for every File input within the size limit whose declared
MIME type is not one of image/jpeg, image/png, image/webp, `uploadAvatar`
rejects with an error whose message contains `JPEG, PNG, or WebP`. -/
theorem upload_rejects_bad_mime_file (env : Env) (userId : String) (s : HookState)
    (size : Nat) (mime : String) (hsize : size ≤ MAX_FILE_SIZE)
    (hmime : ALLOWED_MIME_TYPES.contains mime = false) :
    (uploadAvatar env userId (.file size mime) s).result = .error typeErrorMessage ∧
    containsStr typeErrorMessage "JPEG, PNG, or WebP" := by
  have h1 : ¬ (size > MAX_FILE_SIZE) := by omega
  have h2 : mime ∉ ALLOWED_MIME_TYPES := by simpa using hmime
  have hval : effectiveValidation (.file size mime) = some typeErrorMessage := by
    simp [effectiveValidation, validateFile, h1, h2]
  exact ⟨by simp [uploadAvatar, hval], ⟨"File must be a ", " image", by decide⟩⟩

/-- Witness for C2's theorem at a small text/plain File. -/
theorem upload_rejects_bad_mime_file_witness :
    (uploadAvatar envOk "u" (.file 10 "text/plain") initState).result
      = .error typeErrorMessage ∧ containsStr typeErrorMessage "JPEG, PNG, or WebP" :=
  upload_rejects_bad_mime_file envOk "u" initState 10 "text/plain" (by decide) (by decide)

/-- C2 counterexample: a small Blob declaring MIME type text/plain is not
rejected — the call succeeds and the upload is issued with content type
text/plain. -/
theorem bad_mime_blob_uploads :
    (uploadAvatar envOk "u" (.blob 10 "text/plain") initState).result
      = .ok "https://cdn/u/avatar.jpg?t=0&v=a" ∧
    StorageOp.upload "avatars" "u/avatar.jpg" true "text/plain"
      ∈ (uploadAvatar envOk "u" (.blob 10 "text/plain") initState).trace := by
  decide

/-- C9: every ArrayBuffer input bypasses validation entirely — whatever its
byte length and attached type, the call proceeds to the delete-then-upload
sequence, with content type the attached type or `image/jpeg` when none is
attached, and extension derived from that content type (default `jpg`). -/
theorem arrayBuffer_bypasses_validation (env : Env) (userId : String) (s : HookState)
    (n : Nat) (t : String) :
    effectiveValidation (.arrayBuffer n t) = none ∧
    (uploadAvatar env userId (.arrayBuffer n t) s).trace.take 2 =
      [.remove BUCKET_NAME [filePathOf userId (.arrayBuffer n t)],
       .upload BUCKET_NAME (filePathOf userId (.arrayBuffer n t)) true
         (if t = "" then "image/jpeg" else t)] ∧
    getFileExtension (.arrayBuffer n t) =
      (mimeToExt (if t = "" then "image/jpeg" else t)).getD "jpg" := by
  refine ⟨rfl, ?_, ?_⟩
  · cases h : env.uploadError with
    | some m => simp [uploadAvatar, effectiveValidation, h, contentTypeOf]
    | none =>
      by_cases hb : env.uploadNoData <;>
        simp [uploadAvatar, effectiveValidation, h, hb, contentTypeOf]
  · cases hmt : mimeToExt (if t = "" then "image/jpeg" else t) <;>
      simp [getFileExtension, hmt]

end AvatarUpload

namespace AvatarUpload

/-- C3: when `uploadAvatar` succeeds on an input that declares a MIME type,
the storage upload operation is called with path `userId/avatar.ext` — ext
given by the fixed mapping jpeg→jpg, png→png, webp→webp, unknown→jpg — with
upsert true and content type equal to the declared MIME type. -/
theorem upload_uses_mapped_path (env : Env) (userId : String) (s : HookState)
    (input : FileInput) (u : String)
    (hm : input.declaredMime ≠ "")
    (hok : (uploadAvatar env userId input s).result = .ok u) :
    StorageOp.upload BUCKET_NAME
      (userId ++ "/avatar." ++ (mimeToExt input.declaredMime).getD "jpg")
      true input.declaredMime
      ∈ (uploadAvatar env userId input s).trace := by
  have hval : effectiveValidation input = none := by
    cases hv : effectiveValidation input with
    | none => rfl
    | some m => simp [uploadAvatar, hv] at hok
  have hct : contentTypeOf input = input.declaredMime := by
    cases input with
    | file sz mime => rfl
    | blob sz mime =>
      simp only [FileInput.declaredMime] at hm ⊢
      simp [contentTypeOf, hm]
    | arrayBuffer n t =>
      simp only [FileInput.declaredMime] at hm ⊢
      simp [contentTypeOf, hm]
  have hext : getFileExtension input = (mimeToExt input.declaredMime).getD "jpg" := by
    cases input with
    | file sz mime =>
      cases hmt : mimeToExt mime <;>
        simp [getFileExtension, FileInput.declaredMime, hmt]
    | blob sz mime =>
      simp only [FileInput.declaredMime] at hm ⊢
      cases hmt : mimeToExt mime <;> simp [getFileExtension, hm, hmt]
    | arrayBuffer n t =>
      simp only [FileInput.declaredMime] at hm ⊢
      have ht : (if t = "" then "image/jpeg" else t) = t := by simp [hm]
      cases hmt : mimeToExt t <;> simp [getFileExtension, ht, hmt]
  cases h : env.uploadError with
  | some m => simp [uploadAvatar, hval, h] at hok
  | none =>
    by_cases hb : env.uploadNoData
    · simp [uploadAvatar, hval, h, hb] at hok
    · simp [uploadAvatar, hval, h, hb, filePathOf, hct, hext]

/-- Witness for C3's theorem: a JPEG File for user `u` uploads to
`u/avatar.jpg` with content type `image/jpeg`. -/
theorem upload_uses_mapped_path_witness :
    StorageOp.upload "avatars" "u/avatar.jpg" true "image/jpeg"
      ∈ (uploadAvatar envOk "u" (.file 10 "image/jpeg") initState).trace := by
  have h := upload_uses_mapped_path envOk "u" initState (.file 10 "image/jpeg")
    "https://cdn/u/avatar.jpg?t=0&v=a" (by decide) (by decide)
  have he : ("u" ++ "/avatar." ++ ((mimeToExt "image/jpeg").getD "jpg")) = "u/avatar.jpg" := by
    decide
  simp only [FileInput.declaredMime, BUCKET_NAME] at h
  rw [he] at h
  exact h

/-- C4: for every input passing validation, the call issues the best-effort
delete of the target path first and the upload second; the outcome is
independent of whether that delete rejects; and an upload error surfaces as
`Upload failed: ...` with no URL recorded. -/
theorem upload_sequence (env : Env) (userId : String) (s : HookState)
    (input : FileInput) (hval : effectiveValidation input = none) :
    (uploadAvatar env userId input s).trace.take 2 =
      [.remove BUCKET_NAME [filePathOf userId input],
       .upload BUCKET_NAME (filePathOf userId input) true (contentTypeOf input)] ∧
    (∀ b : Bool, uploadAvatar { env with removeThrows := b } userId input s
        = uploadAvatar env userId input s) ∧
    (∀ m, env.uploadError = some m →
      (uploadAvatar env userId input s).result = .error ("Upload failed: " ++ m) ∧
      (uploadAvatar env userId input s).state.uploadedUrl = none) := by
  refine ⟨?_, fun b => rfl, ?_⟩
  · cases h : env.uploadError with
    | some m => simp [uploadAvatar, hval, h]
    | none => by_cases hb : env.uploadNoData <;> simp [uploadAvatar, hval, h, hb]
  · intro m hm
    constructor <;> simp [uploadAvatar, hval, hm]

/-- Witness for C4's theorem at a storage oracle whose upload fails. -/
theorem upload_sequence_witness :
    (uploadAvatar envUploadFails "u" (.file 10 "image/jpeg") initState).result
      = .error ("Upload failed: " ++ "boom") ∧
    (uploadAvatar envUploadFails "u" (.file 10 "image/jpeg") initState).state.uploadedUrl
      = none :=
  (upload_sequence envUploadFails "u" initState (.file 10 "image/jpeg")
    (by decide)).2.2 "boom" (by decide)

end AvatarUpload

namespace AvatarUpload

/-- Splitting at the first ampersand: a digit string followed by an
ampersand-led tail determines both parts uniquely, since an ampersand is not
a digit. -/
theorem digits_sep_split (d1 : List Char) : ∀ (d2 r1 r2 : List Char),
    (∀ c ∈ d1, c.isDigit = true) → (∀ c ∈ d2, c.isDigit = true) →
    d1 ++ '&' :: r1 = d2 ++ '&' :: r2 → d1 = d2 ∧ r1 = r2 := by
  induction d1 with
  | nil =>
    intro d2 r1 r2 _ h2 h
    cases d2 with
    | nil => simpa using h
    | cons b l =>
      exfalso
      simp only [List.nil_append, List.cons_append, List.cons.injEq] at h
      have hb := h2 b (by simp)
      rw [← h.1] at hb
      exact absurd hb (by decide)
  | cons a l ih =>
    intro d2 r1 r2 h1 h2 h
    cases d2 with
    | nil =>
      exfalso
      simp only [List.nil_append, List.cons_append, List.cons.injEq] at h
      have ha := h1 a (by simp)
      rw [h.1] at ha
      exact absurd ha (by decide)
    | cons b m =>
      simp only [List.cons_append, List.cons.injEq] at h
      obtain ⟨hab, htail⟩ := h
      obtain ⟨hd, hr⟩ :=
        ih m r1 r2 (fun c hc => h1 c (by simp [hc])) (fun c hc => h2 c (by simp [hc])) htail
      exact ⟨by rw [hab, hd], hr⟩

/-- Cache-busted URLs built from different clock values or different random
tokens are different strings. -/
theorem url_ne (base : String) (t1 t2 : Nat) (v1 v2 : String)
    (h : t1 ≠ t2 ∨ v1 ≠ v2) :
    base ++ "?t=" ++ natToString t1 ++ "&v=" ++ v1 ≠
    base ++ "?t=" ++ natToString t2 ++ "&v=" ++ v2 := by
  intro heq
  have hd := congrArg String.data heq
  simp only [String.data_append, List.append_assoc] at hd
  have hd1 := List.append_cancel_left hd
  have hd2 := List.append_cancel_left hd1
  simp only [List.cons_append, List.nil_append] at hd2
  have hsplit := digits_sep_split (natToString t1).data (natToString t2).data
    ('v' :: '=' :: v1.data) ('v' :: '=' :: v2.data)
    (natToDigits_isDigit t1) (natToDigits_isDigit t2) hd2
  cases h with
  | inl ht => exact ht (natToDigits_inj t1 t2 hsplit.1)
  | inr hv =>
    apply hv
    apply String.ext
    have := hsplit.2
    simpa using this

/-- Shape of the value returned by a successful `uploadAvatar` call: the
storage public URL of the target path with the cache-busting query suffix. -/
theorem upload_success_url (env : Env) (userId : String) (s : HookState)
    (input : FileInput) (u : String)
    (hok : (uploadAvatar env userId input s).result = .ok u) :
    u = env.publicUrl (filePathOf userId input) ++ "?t=" ++ natToString env.nowMs
        ++ "&v=" ++ env.randToken := by
  cases hv : effectiveValidation input with
  | some m => simp [uploadAvatar, hv] at hok
  | none =>
    cases h : env.uploadError with
    | some m => simp [uploadAvatar, hv, h] at hok
    | none =>
      by_cases hb : env.uploadNoData
      · simp [uploadAvatar, hv, h, hb] at hok
      · simp [uploadAvatar, hv, h, hb] at hok
        exact hok.symm

/-- C5 (amended): two successful uploads of the same file share the same
base path — the storage-provided public URL of the target — and differ only
in the appended query parameters `?t=millis&v=token`; the two URLs are
distinct whenever the two calls observe a different timestamp or a different
random token (when both repeat, the URLs coincide). -/
theorem upload_urls_cache_busted (e1 e2 : Env) (userId : String) (input : FileInput)
    (s1 s2 : HookState) (u1 u2 : String)
    (h1 : (uploadAvatar e1 userId input s1).result = .ok u1)
    (h2 : (uploadAvatar e2 userId input s2).result = .ok u2)
    (hpub : e1.publicUrl = e2.publicUrl) :
    (∃ base, base = e1.publicUrl (filePathOf userId input) ∧
      u1 = base ++ "?t=" ++ natToString e1.nowMs ++ "&v=" ++ e1.randToken ∧
      u2 = base ++ "?t=" ++ natToString e2.nowMs ++ "&v=" ++ e2.randToken) ∧
    ((e1.nowMs ≠ e2.nowMs ∨ e1.randToken ≠ e2.randToken) → u1 ≠ u2) := by
  have hu1 := upload_success_url e1 userId s1 input u1 h1
  have hu2 := upload_success_url e2 userId s2 input u2 h2
  rw [← hpub] at hu2
  refine ⟨⟨e1.publicUrl (filePathOf userId input), rfl, hu1, hu2⟩, ?_⟩
  intro hne heq
  rw [hu1, hu2] at heq
  exact url_ne _ _ _ _ _ hne heq

/-- Witness for C5's theorem: uploads observed at clock values 0 and 1 with
the same token produce different URLs. -/
theorem upload_urls_cache_busted_witness :
    ("https://cdn/u/avatar.jpg?t=0&v=a" : String) ≠ "https://cdn/u/avatar.jpg?t=1&v=a" :=
  (upload_urls_cache_busted envOk envOkLater "u" (.file 10 "image/jpeg")
    initState initState "https://cdn/u/avatar.jpg?t=0&v=a" "https://cdn/u/avatar.jpg?t=1&v=a"
    (by decide) (by decide) rfl).2 (Or.inl (by decide))

/-- C5 counterexample: two successful uploads of the same file whose calls
observe the same clock value and the same random token return the same URL,
not distinct ones. -/
theorem same_oracle_same_url :
    (uploadAvatar envOk "u" (.file 10 "image/jpeg") initState).result
      = .ok "https://cdn/u/avatar.jpg?t=0&v=a" ∧
    (uploadAvatar envOkAgain "u" (.file 10 "image/jpeg") initState).result
      = .ok "https://cdn/u/avatar.jpg?t=0&v=a" := by
  decide

end AvatarUpload

namespace AvatarUpload

/-- C6: `removeAvatar` first lists the user's folder with limit 10 and
search term `avatar`; when the list fails it deletes exactly the three
guessed paths and completes without raising; when the list succeeds with a
nonempty set of matches it issues a delete covering every match. -/
theorem removeAvatar_lists_and_deletes (env : RemoveEnv) (userId : String) (s : HookState) :
    (removeAvatar env userId s).trace.head? = some (.list BUCKET_NAME userId 10 "avatar") ∧
    (∀ e, env.listResult = .error e →
      (removeAvatar env userId s).trace =
        [.list BUCKET_NAME userId 10 "avatar",
         .remove BUCKET_NAME
           [userId ++ "/avatar.jpg", userId ++ "/avatar.png", userId ++ "/avatar.webp"]] ∧
      (removeAvatar env userId s).result = .ok ()) ∧
    (∀ files, env.listResult = .ok files → files ≠ [] →
      StorageOp.remove BUCKET_NAME (files.map (fun name => userId ++ "/" ++ name))
        ∈ (removeAvatar env userId s).trace) := by
  refine ⟨?_, ?_, ?_⟩
  · cases hl : env.listResult with
    | error e => simp [removeAvatar, hl]
    | ok files =>
      by_cases hf : files.length > 0
      · cases hr : env.removeError <;> simp [removeAvatar, hl, hf, hr]
      · simp [removeAvatar, hl, hf]
  · intro e hl
    constructor <;> simp [removeAvatar, hl]
  · intro files hl hne
    have hf : files.length > 0 := List.length_pos.mpr hne
    cases hr : env.removeError <;> simp [removeAvatar, hl, hf, hr]

/-- Witness for C6's theorem at a failing list call. -/
theorem removeAvatar_lists_and_deletes_witness :
    (removeAvatar envListFails "u" initState).trace =
      [.list "avatars" "u" 10 "avatar",
       .remove "avatars" ["u/avatar.jpg", "u/avatar.png", "u/avatar.webp"]] ∧
    (removeAvatar envListFails "u" initState).result = .ok () := by
  obtain ⟨h1, h2⟩ :=
    (removeAvatar_lists_and_deletes envListFails "u" initState).2.1 "nope" (by decide)
  refine ⟨?_, h2⟩
  rw [h1]
  decide

/-- C7 (amended): when `removeAvatar` completes without raising via the
listing path, the local uploadedUrl state is cleared to null; when the list
call fails, the fallback delete path returns without raising and leaves
uploadedUrl unchanged. -/
theorem removeAvatar_uploadedUrl (env : RemoveEnv) (userId : String) (s : HookState) :
    (∀ files, env.listResult = .ok files →
      (removeAvatar env userId s).result = .ok () →
      (removeAvatar env userId s).state.uploadedUrl = none) ∧
    (∀ e, env.listResult = .error e →
      (removeAvatar env userId s).result = .ok () ∧
      (removeAvatar env userId s).state.uploadedUrl = s.uploadedUrl) := by
  constructor
  · intro files hl hok
    by_cases hf : files.length > 0
    · cases hr : env.removeError with
      | some m => simp [removeAvatar, hl, hf, hr] at hok
      | none => simp [removeAvatar, hl, hf, hr]
    · simp [removeAvatar, hl, hf]
  · intro e hl
    constructor <;> simp [removeAvatar, hl]

/-- Witness for C7's theorem at a successful list-and-delete call. -/
theorem removeAvatar_uploadedUrl_witness :
    (removeAvatar envListOk "u" stateWithUrl).state.uploadedUrl = none :=
  (removeAvatar_uploadedUrl envListOk "u" stateWithUrl).1 ["avatar.jpg"]
    (by decide) (by decide)

/-- C7 counterexample: when the list call fails, `removeAvatar` completes
without raising but the previously stored uploadedUrl is not cleared. -/
theorem remove_fallback_keeps_url :
    (removeAvatar envListFails "u" stateWithUrl).result = .ok () ∧
    (removeAvatar envListFails "u" stateWithUrl).state.uploadedUrl = some "old" := by
  decide

/-- C8: both `uploadAvatar` and `removeAvatar` raise an error exactly when
that same wrapped error value is recorded in the local error state. -/
theorem error_iff_state (envU : Env) (envR : RemoveEnv) (userId : String)
    (input : FileInput) (s1 s2 : HookState) (e : String) :
    ((uploadAvatar envU userId input s1).result = .error e ↔
      (uploadAvatar envU userId input s1).state.error = some e) ∧
    ((removeAvatar envR userId s2).result = .error e ↔
      (removeAvatar envR userId s2).state.error = some e) := by
  constructor
  · cases hv : effectiveValidation input with
    | some m => simp [uploadAvatar, hv]
    | none =>
      cases h : envU.uploadError with
      | some m => simp [uploadAvatar, hv, h]
      | none => by_cases hb : envU.uploadNoData <;> simp [uploadAvatar, hv, h, hb]
  · cases hl : envR.listResult with
    | error er => simp [removeAvatar, hl]
    | ok files =>
      by_cases hf : files.length > 0
      · cases hr : envR.removeError <;> simp [removeAvatar, hl, hf, hr]
      · simp [removeAvatar, hl, hf]

end AvatarUpload

namespace PRRouter

/-- Splitting an all-digit segment followed by an absent-or-slash-led rest:
`takeWhile` recovers exactly the digits and `dropWhile` the rest. -/
theorem takeWhile_digits (N : List Char) : ∀ rest : List Char,
    (∀ c ∈ N, c.isDigit = true) → (rest = [] ∨ ∃ tl, rest = '/' :: tl) →
    (N ++ rest).takeWhile Char.isDigit = N ∧
    (N ++ rest).dropWhile Char.isDigit = rest := by
  induction N with
  | nil =>
    intro rest _ hsh
    rcases hsh with h | ⟨tl, h⟩
    · subst h; simp
    · subst h
      simp [List.takeWhile_cons, List.dropWhile_cons]
  | cons c l ih =>
    intro rest hN hsh
    have hc : c.isDigit = true := hN c (by simp)
    obtain ⟨h1, h2⟩ := ih rest (fun d hd => hN d (by simp [hd])) hsh
    simp [List.takeWhile_cons, List.dropWhile_cons, hc, h1, h2]

/-- The head surviving a `dropWhile` fails the predicate. -/
theorem dropWhile_head_not (p : Char → Bool) (l : List Char) :
    ∀ a, (l.dropWhile p).head? = some a → p a = false := by
  induction l with
  | nil => intro a h; simp at h
  | cons c t ih =>
    intro a h
    by_cases hc : p c = true
    · rw [List.dropWhile_cons_of_pos hc] at h
      exact ih a h
    · rw [List.dropWhile_cons_of_neg hc] at h
      simp only [List.head?_cons, Option.some.injEq] at h
      subst h
      simpa using hc

/-- Sanitizing the captured PR segment is the identity: it starts with `p`
and ends with a digit, so no outer slashes are stripped. -/
theorem stripOuter_pr (N : List Char) (hN : ∀ c ∈ N, c.isDigit = true) (hne : N ≠ []) :
    stripOuterSlashes ('p' :: 'r' :: '-' :: N) = 'p' :: 'r' :: '-' :: N := by
  unfold stripOuterSlashes
  have h1 : ('p' :: 'r' :: '-' :: N).dropWhile (· == '/') = 'p' :: 'r' :: '-' :: N := by
    rw [List.dropWhile_cons_of_neg (by decide)]
  rw [h1]
  obtain ⟨c, cs, hrev⟩ : ∃ c cs, N.reverse = c :: cs := by
    cases h : N.reverse with
    | nil => exact absurd (List.reverse_eq_nil_iff.mp h) hne
    | cons c cs => exact ⟨c, cs, rfl⟩
  have hcN : c ∈ N := List.mem_reverse.mp (by rw [hrev]; exact List.mem_cons_self c cs)
  have hcd : (c == '/') = false := by
    cases hcc : (c == '/') with
    | false => rfl
    | true =>
      exfalso
      have hce : c = '/' := by simpa using hcc
      have := hN c hcN
      rw [hce] at this
      exact absurd this (by decide)
  have h2 : ('p' :: 'r' :: '-' :: N).reverse = c :: (cs ++ ['-', 'r', 'p']) := by
    show (['p', 'r', '-'] ++ N).reverse = _
    rw [List.reverse_append, hrev]
    simp
  rw [h2, List.dropWhile_cons_of_neg (by simp [hcd]), ← h2, List.reverse_reverse]

/-- On a URI of the PR form, the matcher returns exactly the claimed capture
groups. -/
theorem prMatch_eq_some (N rest : List Char) (hN : ∀ c ∈ N, c.isDigit = true)
    (hne : N ≠ []) (hrest : restOk rest = true) :
    prMatch ('/' :: 'p' :: 'r' :: '-' :: (N ++ rest)) = some (N, rest) := by
  have hsh : rest = [] ∨ ∃ tl, rest = '/' :: tl := by
    cases rest with
    | nil => exact Or.inl rfl
    | cons c tl =>
      right
      simp only [restOk, Bool.and_eq_true] at hrest
      have hc : c = '/' := by simpa using hrest.1
      exact ⟨tl, by rw [hc]⟩
  obtain ⟨htake, hdrop⟩ := takeWhile_digits N rest hN hsh
  have hne' : N.isEmpty = false := by
    cases N with
    | nil => exact absurd rfl hne
    | cons a l => rfl
  simp [prMatch, htake, hdrop, hne', hrest]

/-- Conversely, a successful match exhibits the PR form. -/
theorem prMatch_some_form (u : List Char) (N rest : List Char)
    (h : prMatch u = some (N, rest)) : isPRForm u N rest := by
  match u with
  | [] => simp [prMatch] at h
  | [a] => simp [prMatch] at h
  | [a, b] => simp [prMatch] at h
  | [a, b, c] => simp [prMatch] at h
  | a :: b :: c :: d :: t =>
    by_cases h1 : (a == '/' && b == 'p' && c == 'r' && d == '-') = true
    · by_cases h2 : (!(t.takeWhile Char.isDigit).isEmpty
          && restOk (t.dropWhile Char.isDigit)) = true
      · simp only [prMatch, h1, h2, if_true, Option.some.injEq, Prod.mk.injEq] at h
        obtain ⟨hNt, hrt⟩ := h
        simp only [Bool.and_eq_true, beq_iff_eq] at h1
        obtain ⟨⟨⟨ha, hb⟩, hc⟩, hd⟩ := h1
        simp only [Bool.and_eq_true, Bool.not_eq_true'] at h2
        refine ⟨?_, ?_, ?_, ?_⟩
        · rw [ha, hb, hc, hd, ← hNt, ← hrt, List.takeWhile_append_dropWhile]
        · rw [← hNt]
          intro hcon
          rw [hcon] at h2
          simp at h2
        · intro x hx
          rw [← hNt] at hx
          exact List.mem_takeWhile_imp hx
        · rw [← hrt]
          exact h2.2
      · simp [prMatch, h1, h2] at h
    · simp [prMatch, h1] at h

end PRRouter

namespace PRRouter

/-- On the PR form, the code's rewrite agrees with the rewrite target the
claim describes. -/
theorem rewrite_eq_claim (N rest : List Char) (hN : ∀ c ∈ N, c.isDigit = true)
    (hne : N ≠ []) (hrest : restOk rest = true) :
    '/' :: rewritePath ('p' :: 'r' :: '-' :: N) rest = claimTarget N rest := by
  have hseg := stripOuter_pr N hN hne
  cases rest with
  | nil =>
    simp [rewritePath, claimTarget, hseg, List.dropWhile_cons]
  | cons c tl =>
    have hc : c = '/' := by
      simp only [restOk, Bool.and_eq_true] at hrest
      simpa using hrest.1
    subst hc
    by_cases hp : tl.dropWhile (· == '/') = []
    · simp [rewritePath, claimTarget, hseg, List.dropWhile_cons, hp]
    · have hpe : (tl.dropWhile (· == '/')).isEmpty = false := by
        cases hcase : tl.dropWhile (· == '/') with
        | nil => exact absurd hcase hp
        | cons x xs => rfl
      have hslash : (tl.dropWhile (· == '/')) ≠ ['/'] := by
        intro hcon
        have := dropWhile_head_not (· == '/') tl '/' (by rw [hcon]; rfl)
        simp at this
      have hbeq : ((tl.dropWhile (· == '/')) == ['/']) = false :=
        beq_eq_false_iff_ne.mpr hslash
      by_cases hfp : isFilePath (tl.dropWhile (· == '/')) = true
      · simp [rewritePath, claimTarget, hseg, List.dropWhile_cons, hp, hpe, hbeq, hfp]
      · simp [rewritePath, claimTarget, hseg, List.dropWhile_cons, hp, hpe, hbeq, hfp]

/-- C10: the viewer-request handler rewrites every URI of the PR form
`/pr-N rest` to the claim's target — `/pr-N/rest-without-leading-slashes`
when the rest ends in a file extension, `/pr-N/index.html` when the rest is
empty, a slash, or extension-less — and returns every URI not of that form
unchanged. -/
theorem pr_path_router_claim (uri : List Char) :
    (∀ N rest, isPRForm uri N rest → handler uri = claimTarget N rest) ∧
    ((¬ ∃ N rest, isPRForm uri N rest) → handler uri = uri) := by
  constructor
  · intro N rest hform
    obtain ⟨hu, hne, hN, hrest⟩ := hform
    subst hu
    have hm := prMatch_eq_some N rest hN hne hrest
    simp only [handler, List.isEmpty_cons, Bool.false_eq_true, if_false, hm]
    exact rewrite_eq_claim N rest hN hne hrest
  · intro hnex
    cases huri : uri with
    | nil => rfl
    | cons a u1 =>
      subst huri
      cases hm : prMatch (a :: u1) with
      | none => simp [handler, hm]
      | some pr =>
        exfalso
        exact hnex ⟨pr.1, pr.2, prMatch_some_form (a :: u1) pr.1 pr.2 (by rw [hm])⟩

/-- Witness for C10's theorem: the SPA route `/pr-123/dashboard` rewrites to
`/pr-123/index.html`. -/
theorem pr_path_router_claim_witness :
    handler ("/pr-123/dashboard").data = ("/pr-123/index.html").data := by
  have h := (pr_path_router_claim (("/pr-123/dashboard").data)).1
    ['1', '2', '3'] (("/dashboard").data) (by decide)
  rw [h]
  decide

end PRRouter
